import Mathlib

/-!
Shallow embedding of the aikido robot planning utilities of
src/robot/util.cpp, and of the piecewise linear trajectory interface of
include/aikido/path/PiecewiseLinearTrajectory.hpp.

External collaborators (the snap planner, the OMPL RRTConnect planner, the
CRRT planner, the vector field planner, Eigen vector normalization and
quaternion construction, forward kinematics of the end effector body node,
and the TSR to inverse kinematics sample generator) live outside this
repository and are modelled as parameters gathered in a PlanEnv record.
Wall clock time is modelled by a rational clock in the planner state that
each modelled external operation advances by an environment supplied cost;
C++ doubles become rationals.  The live configuration of the shared robot
skeleton is threaded through every operation, so the save and restore
behaviour of MetaSkeletonStateSaver and the mutations performed by sampling
and planning are observable in the final state.  The state also carries
instrumentation counters (how often each external planning stage was
invoked, which time slices were delegated, and which arguments reached the
vector field stage); the counters are bumped exactly at the modelled call
sites and nowhere else.
-/

namespace Aikido

/-- A 3 vector of rationals, modelling an Eigen Vector3d. -/
structure Vec3 where
  x : ℚ
  y : ℚ
  z : ℚ
deriving DecidableEq

instance : Add Vec3 := ⟨fun a b => ⟨a.x + b.x, a.y + b.y, a.z + b.z⟩⟩

instance : Neg Vec3 := ⟨fun a => ⟨-a.x, -a.y, -a.z⟩⟩

instance : SMul ℚ Vec3 := ⟨fun c a => ⟨c * a.x, c * a.y, c * a.z⟩⟩

/-- Dot product of two 3 vectors. -/
def Vec3.dot (a b : Vec3) : ℚ := a.x * b.x + a.y * b.y + a.z * b.z

/-- Squared Euclidean norm.  The source compares norm() against constants;
over the rationals the equivalent comparison is phrased on the square,
since the real square root is zero exactly on zero and monotone. -/
def normSq (v : Vec3) : ℚ := v.x * v.x + v.y * v.y + v.z * v.z

/-- The unit z axis, the first argument of FromTwoVectors in
getLookAtIsometry. -/
def unitZ : Vec3 := ⟨0, 0, 1⟩

/-- A 3 by 3 matrix given by rows, modelling the rotation part of an Eigen
Isometry3d. -/
structure Mat3 where
  r0 : Vec3
  r1 : Vec3
  r2 : Vec3
deriving DecidableEq

/-- Matrix times vector. -/
def Mat3.mulVec (m : Mat3) (v : Vec3) : Vec3 := ⟨m.r0.dot v, m.r1.dot v, m.r2.dot v⟩

/-- Matrix transpose. -/
def Mat3.transpose (m : Mat3) : Mat3 :=
  ⟨⟨m.r0.x, m.r1.x, m.r2.x⟩, ⟨m.r0.y, m.r1.y, m.r2.y⟩, ⟨m.r0.z, m.r1.z, m.r2.z⟩⟩

/-- Matrix product. -/
def Mat3.mul (a b : Mat3) : Mat3 :=
  let bt := b.transpose
  ⟨⟨a.r0.dot bt.r0, a.r0.dot bt.r1, a.r0.dot bt.r2⟩,
   ⟨a.r1.dot bt.r0, a.r1.dot bt.r1, a.r1.dot bt.r2⟩,
   ⟨a.r2.dot bt.r0, a.r2.dot bt.r1, a.r2.dot bt.r2⟩⟩

/-- The identity matrix. -/
def idMat3 : Mat3 := ⟨⟨1, 0, 0⟩, ⟨0, 1, 0⟩, ⟨0, 0, 1⟩⟩

/-- Rigid transform, modelling an Eigen Isometry3d: a rotation part plus a
translation. -/
structure Iso3 where
  linear : Mat3
  translation : Vec3
deriving DecidableEq

/-- Composition of isometries, modelling the Isometry3d product. -/
def Iso3.comp (a b : Iso3) : Iso3 :=
  ⟨a.linear.mul b.linear, a.linear.mulVec b.translation + a.translation⟩

/-- Inverse of an isometry.  In Eigen Isometry mode the linear part is
inverted by transposition. -/
def Iso3.inv (a : Iso3) : Iso3 :=
  ⟨a.linear.transpose, -(a.linear.transpose.mulVec a.translation)⟩

/-- The identity transform. -/
def idIso3 : Iso3 := ⟨idMat3, ⟨0, 0, 0⟩⟩

/-- One row of the 6 by 2 TSR bounds matrix mBw: a lower and an upper
bound. -/
structure BwRow where
  lo : ℚ
  hi : ℚ
deriving DecidableEq

/-- The 6 by 2 bounds matrix of a TSR: three translational rows followed by
three rotational rows, in the row major order of the Eigen comma
initializer used by the source. -/
structure Bw6 where
  tx : BwRow
  ty : BwRow
  tz : BwRow
  rx : BwRow
  ry : BwRow
  rz : BwRow
deriving DecidableEq

/-- The all zero bounds matrix produced by mBw.setZero(). -/
def zeroBw : Bw6 := ⟨⟨0, 0⟩, ⟨0, 0⟩, ⟨0, 0⟩, ⟨0, 0⟩, ⟨0, 0⟩, ⟨0, 0⟩⟩

/-- Task space region, modelling aikido constraint dart TSR: an anchor
transform, an end effector offset transform, and the bounds matrix.  Field
names follow the source. -/
structure TSR where
  mT0_w : Iso3
  mTw_e : Iso3
  mBw : Bw6
deriving DecidableEq

/-- The mutable state threaded through every planning call: the live
configuration of the shared skeleton, the wall clock, invocation counters
for the four external planning stages, the list of time slices delegated to
planToConfiguration, and the arguments passed to the vector field stage. -/
structure PlanState (Cfg : Type) where
  config : Cfg
  now : ℚ
  snapCalls : ℕ
  omplCalls : ℕ
  vfCalls : ℕ
  crrtCalls : ℕ
  slices : List ℚ
  vfArgs : List (Vec3 × ℚ × ℚ)
deriving DecidableEq

/-- The numeric fields of VectorFieldPlannerParameters that
planToEndEffectorOffset reads. -/
structure VectorFieldPlannerParameters where
  negativeDistanceTolerance : ℚ
  positiveDistanceTolerance : ℚ
  initialStepSize : ℚ
  jointLimitTolerance : ℚ
  constraintCheckResolution : ℚ
deriving DecidableEq

/-- The external collaborators of the cascade, as deterministic functions
(the source threads a deterministic RNG).  Each planner receives the start
state, its goal data, its time limit where it has one, and the current
skeleton configuration, and returns an optional trajectory together with
the configuration it leaves the skeleton in.  unit models Eigen vector
normalization, fromTwoVectors the Eigen quaternion FromTwoVectors rotation,
and worldTransform the forward kinematics of the end effector body node.
The cost fields give the wall clock time each external operation takes. -/
structure PlanEnv (Cfg Traj : Type) where
  snap : Cfg → Cfg → Cfg → Option Traj × Cfg
  ompl : Cfg → Cfg → ℚ → Cfg → Option Traj × Cfg
  crrt : Cfg → TSR → TSR → ℚ → Cfg → Option Traj × Cfg
  vf : Cfg → Vec3 → ℚ → ℚ → ℚ → ℚ → ℚ → ℚ → ℚ → ℚ → Option Traj × Cfg
  unit : Vec3 → Vec3
  fromTwoVectors : Vec3 → Vec3 → Mat3
  worldTransform : Cfg → Iso3
  snapCost : ℚ
  sampleCost : ℚ
  omplCost : ℚ → ℚ
  vfCost : ℚ
  crrtCost : ℚ

variable {Cfg Traj : Type}

/-- planToConfiguration of src/robot/util.cpp: lock the skeleton, save the
current configuration, read the start state from the live skeleton, try the
snap planner first, return its trajectory if non empty, otherwise run the
OMPL RRTConnect planner with the given time limit; the saver restores the
saved configuration on every exit path.  The time limit argument is
recorded in the slices instrumentation list. -/
def planToConfiguration (env : PlanEnv Cfg Traj) (goalState : Cfg) (timelimit : ℚ)
    (s : PlanState Cfg) : Option Traj × PlanState Cfg :=
  let saved := s.config
  let startState := s.config
  let s0 := { s with slices := s.slices ++ [timelimit] }
  let p1 := env.snap startState goalState s0.config
  let s1 := { s0 with
    config := p1.2
    now := s0.now + env.snapCost
    snapCalls := s0.snapCalls + 1 }
  match p1.1 with
  | some t => (some t, { s1 with config := saved })
  | none =>
    let p2 := env.ompl startState goalState timelimit s1.config
    let s2 := { s1 with
      config := p2.2
      now := s1.now + env.omplCost timelimit
      omplCalls := s1.omplCalls + 1 }
    (p2.1, { s2 with config := saved })

/-- The loop body of planToConfigurations, translated faithfully from the
source: the for loop over the goal states runs snap and then OMPL for its
current goal and then ends with an unconditional return of the OMPL result,
so at most the first goal state is ever attempted and the trailing return
of nullptr is reachable only for an empty goal list. -/
def planToConfigurationsLoop (env : PlanEnv Cfg Traj) (startState : Cfg) (timelimit : ℚ) :
    List Cfg → PlanState Cfg → Option Traj × PlanState Cfg
  | [], s => (none, s)
  | g :: _, s =>
    let p1 := env.snap startState g s.config
    let s1 := { s with
      config := p1.2
      now := s.now + env.snapCost
      snapCalls := s.snapCalls + 1 }
    match p1.1 with
    | some t => (some t, s1)
    | none =>
      let p2 := env.ompl startState g timelimit s1.config
      let s2 := { s1 with
        config := p2.2
        now := s1.now + env.omplCost timelimit
        omplCalls := s1.omplCalls + 1 }
      (p2.1, s2)

/-- planToConfigurations of src/robot/util.cpp: lock, save, read the start
state, run the loop over goal states, restore on exit. -/
def planToConfigurations (env : PlanEnv Cfg Traj) (goalStates : List Cfg) (timelimit : ℚ)
    (s : PlanState Cfg) : Option Traj × PlanState Cfg :=
  let saved := s.config
  let p := planToConfigurationsLoop env s.config timelimit goalStates s
  (p.1, { p.2 with config := saved })

/-- The bound on the initial snap only phase of planToTSR (the source
constant maxSnapSamples). -/
def maxSnapSamples : ℕ := 100

/-- The first while loop of planToTSR: while fewer than maxSnapSamples
goals have been sampled successfully and the generator can still sample,
draw a sample (a draw whose inverse kinematics fails only continues the
loop and does not count), reset the skeleton to the start state, and try a
snap plan to the sampled goal; return its trajectory if non empty.  Each
generator entry models one call of generator sample: the optional goal it
produces and the configuration the draw leaves the skeleton in.  The value
returned includes the generator entries not yet consumed, which the second
phase continues from. -/
def tsrSnapLoop (env : PlanEnv Cfg Traj) (startState : Cfg) :
    List (Option Cfg × Cfg) → ℕ → PlanState Cfg →
      Option Traj × PlanState Cfg × List (Option Cfg × Cfg)
  | gen, snapSamples, s =>
    if snapSamples < maxSnapSamples then
      match gen with
      | [] => (none, s, [])
      | (draw, cAfter) :: rest =>
        let sSampled := { s with now := s.now + env.sampleCost, config := cAfter }
        match draw with
        | none => tsrSnapLoop env startState rest snapSamples sSampled
        | some g =>
          let sReset := { sSampled with config := startState }
          let p := env.snap startState g sReset.config
          let sSnap := { sReset with
            config := p.2
            now := sReset.now + env.snapCost
            snapCalls := sReset.snapCalls + 1 }
          match p.1 with
          | some t => (some t, sSnap, rest)
          | none => tsrSnapLoop env startState rest (snapSamples + 1) sSnap
    else (none, s, gen)

/-- The second while loop of planToTSR, run on a timer freshly started at
time t0: while the elapsed time is below the time limit and the generator
can still sample, draw a sample (failed draws only continue the loop),
reset the skeleton to the start state, and delegate to planToConfiguration
with time slice min tps (timelimit minus the elapsed time at delegation),
where tps is the per sample slice computed by planToTSR. -/
def tsrTimedLoop (env : PlanEnv Cfg Traj) (startState : Cfg) (tps tl t0 : ℚ) :
    List (Option Cfg × Cfg) → PlanState Cfg → Option Traj × PlanState Cfg
  | [], s => (none, s)
  | (draw, cAfter) :: rest, s =>
    if s.now - t0 < tl then
      let sSampled := { s with now := s.now + env.sampleCost, config := cAfter }
      match draw with
      | none => tsrTimedLoop env startState tps tl t0 rest sSampled
      | some g =>
        let sReset := { sSampled with config := startState }
        let slice := min tps (tl - (sReset.now - t0))
        let p := planToConfiguration env g slice sReset
        match p.1 with
        | some t => (some t, p.2)
        | none => tsrTimedLoop env startState tps tl t0 rest p.2
    else (none, s)

/-- planToTSR of src/robot/util.cpp: build the inverse kinematics sample
generator (modelled by the gen list), compute the per sample time slice
timelimit divided by maxNumTrials, save the current configuration, run the
snap only phase, and if it found no trajectory start a fresh timer and run
the timed phase on the remaining generator entries; the saver restores the
saved configuration on every exit path. -/
def planToTSR (env : PlanEnv Cfg Traj) (maxNumTrials : ℕ) (timelimit : ℚ)
    (gen : List (Option Cfg × Cfg)) (s : PlanState Cfg) : Option Traj × PlanState Cfg :=
  let timelimitPerSample := timelimit / (maxNumTrials : ℚ)
  let saved := s.config
  let startState := s.config
  match tsrSnapLoop env startState gen 0 s with
  | (some t, s1, _) => (some t, { s1 with config := saved })
  | (none, s1, rest) =>
    let p := tsrTimedLoop env startState timelimitPerSample timelimit s1.now rest s1
    (p.1, { p.2 with config := saved })

/-- planToTSRwithTrajectoryConstraint of src/robot/util.cpp: lock, save the
current configuration, build the goal and constraint sampleables and the
projectable (pure wiring to external constraint classes, absorbed into the
crrt collaborator), read the start state, call the CRRT planner, restore on
exit. -/
def planToTSRwithTrajectoryConstraint (env : PlanEnv Cfg Traj) (goalTsr constraintTsr : TSR)
    (timelimit : ℚ) (s : PlanState Cfg) : Option Traj × PlanState Cfg :=
  let saved := s.config
  let startState := s.config
  let p := env.crrt startState goalTsr constraintTsr timelimit s.config
  let s1 := { s with
    config := p.2
    now := s.now + env.crrtCost
    crrtCalls := s.crrtCalls + 1 }
  (p.1, { s1 with config := saved })

/-- getLookAtIsometry of src/robot/util.cpp: reject a positionTo of norm
below 1e-6 (phrased on the square), otherwise return the transform whose
translation is positionFrom and whose rotation is FromTwoVectors of the
unit z axis and positionTo. -/
def getLookAtIsometry (fromTwoVectors : Vec3 → Vec3 → Mat3)
    (positionFrom positionTo : Vec3) : Except String Iso3 :=
  if normSq positionTo < 1 / 1000000000000 then
    .error "positionTo cannot be a zero vector."
  else
    .ok { linear := fromTwoVectors unitZ positionTo, translation := positionFrom }

/-- getGoalAndConstraintTSRForEndEffectorOffset of src/robot/util.cpp,
with the current world transform of the end effector body node passed in
(the source reads it from the live skeleton).  The null pointer check on
the output TSRs is dropped: the Lean model returns the TSRs by value, and
the only caller always passes freshly allocated pointers. -/
def getGoalAndConstraintTSRForEndEffectorOffset (fromTwoVectors : Vec3 → Vec3 → Mat3)
    (hWorldEE : Iso3) (direction : Vec3)
    (distance positionTolerance angularTolerance : ℚ) : Except String (TSR × TSR) :=
  match getLookAtIsometry fromTwoVectors hWorldEE.translation direction with
  | .error e => .error e
  | .ok hWorldW =>
    let hWEE := (Iso3.inv hWorldW).comp hWorldEE
    let hwEnd : Iso3 := { linear := idMat3, translation := ⟨0, 0, distance⟩ }
    let goal : TSR := { mT0_w := hWorldW.comp hwEnd, mTw_e := hWEE, mBw := zeroBw }
    let constraint : TSR :=
      { mT0_w := hWorldW, mTw_e := hWEE,
        mBw := ⟨⟨-positionTolerance, positionTolerance⟩,
               ⟨-positionTolerance, positionTolerance⟩,
               ⟨0, distance⟩,
               ⟨-angularTolerance, angularTolerance⟩,
               ⟨-angularTolerance, angularTolerance⟩,
               ⟨-angularTolerance, angularTolerance⟩⟩ }
    .ok (goal, constraint)

/-- The canonicalization performed by planToEndEffectorOffsetByCRRT:
normalize the direction (the external Eigen normalize, modelled by the
unit collaborator), and if the distance is negative flip the sign of both
the distance and the direction. -/
def eeOffsetCanonical (unit : Vec3 → Vec3) (direction : Vec3) (distance : ℚ) : ℚ × Vec3 :=
  let u := unit direction
  if distance < 0 then (-distance, -u) else (distance, u)

/-- The goal and constraint TSR pair planToEndEffectorOffsetByCRRT builds
for a given configuration, direction and distance: canonicalize, then run
the TSR builder on the canonical direction and distance. -/
def eeOffsetProblem (env : PlanEnv Cfg Traj) (cfg : Cfg) (direction : Vec3)
    (distance positionTolerance angularTolerance : ℚ) : Except String (TSR × TSR) :=
  let c := eeOffsetCanonical env.unit direction distance
  getGoalAndConstraintTSRForEndEffectorOffset env.fromTwoVectors (env.worldTransform cfg)
    c.2 c.1 positionTolerance angularTolerance

/-- planToEndEffectorOffsetByCRRT of src/robot/util.cpp: raise a hard zero
direction error when the direction has norm exactly zero, otherwise
canonicalize, build the goal and constraint TSRs, and delegate to
planToTSRwithTrajectoryConstraint. -/
def planToEndEffectorOffsetByCRRT (env : PlanEnv Cfg Traj) (direction : Vec3)
    (distance timelimit positionTolerance angularTolerance : ℚ) (s : PlanState Cfg) :
    Except String (Option Traj) × PlanState Cfg :=
  if normSq direction = 0 then (.error "Direction vector is a zero vector", s)
  else
    match eeOffsetProblem env s.config direction distance positionTolerance angularTolerance with
    | .error e => (.error e, s)
    | .ok (goalTsr, constraintTsr) =>
      let p := planToTSRwithTrajectoryConstraint env goalTsr constraintTsr timelimit s
      (.ok p.1, p.2)

/-- Modelled from the spec: the body of the vector field planner (aikido
planner vectorfield planToEndEffectorOffset) is not under src, only its
call site is.  Following section 7 of the spec (input validation errors,
among them a zero length direction, are raised immediately and never
retried) and the section 8 scenario, it rejects a zero length direction as
a hard error before any planning runs; otherwise its behaviour is the
external collaborator vf of the environment.  The vfArgs instrumentation
list records the direction and the distance window the call site passed. -/
def vectorfieldStage (env : PlanEnv Cfg Traj) (direction : Vec3)
    (minDistance maxDistance positionTolerance angularTolerance initialStepSize
      jointLimitTolerance constraintCheckResolution timelimit : ℚ) (s : PlanState Cfg) :
    Except String (Option Traj) × PlanState Cfg :=
  let sLogged := { s with vfArgs := s.vfArgs ++ [(direction, minDistance, maxDistance)] }
  if normSq direction = 0 then (.error "Direction vector is a zero vector", sLogged)
  else
    let p := env.vf s.config direction minDistance maxDistance positionTolerance
      angularTolerance initialStepSize jointLimitTolerance constraintCheckResolution timelimit
    (.ok p.1, { sLogged with
      config := p.2
      now := sLogged.now + env.vfCost
      vfCalls := sLogged.vfCalls + 1 })

/-- planToEndEffectorOffset of src/robot/util.cpp: lock, save the current
configuration, compute the distance window from the distance and the vector
field tolerances, run the vector field stage on the raw direction and that
window, return its trajectory if non empty, otherwise fall back to
planToEndEffectorOffsetByCRRT; the saver restores the saved configuration
on every exit path, including the error paths. -/
def planToEndEffectorOffset (env : PlanEnv Cfg Traj) (direction : Vec3)
    (distance timelimit positionTolerance angularTolerance : ℚ)
    (vfParameters : VectorFieldPlannerParameters) (s : PlanState Cfg) :
    Except String (Option Traj) × PlanState Cfg :=
  let saved := s.config
  let minDistance := distance - vfParameters.negativeDistanceTolerance
  let maxDistance := distance + vfParameters.positiveDistanceTolerance
  let p := vectorfieldStage env direction minDistance maxDistance positionTolerance
    angularTolerance vfParameters.initialStepSize vfParameters.jointLimitTolerance
    vfParameters.constraintCheckResolution timelimit s
  match p.1 with
  | .error e => (.error e, { p.2 with config := saved })
  | .ok (some t) => (.ok (some t), { p.2 with config := saved })
  | .ok none =>
    let q := planToEndEffectorOffsetByCRRT env direction distance timelimit
      positionTolerance angularTolerance p.2
    (q.1, { q.2 with config := saved })

/-- Modelled from the spec: the implementation file of
PiecewiseLinearTrajectory is not under src, only the header is.  Translated
from the header documentation (get the index of the first waypoint whose
time value is larger than t; throws a domain error if t is larger than the
last waypoint of the trajectory) and spec section 4.1 (for t before the
first waypoint, returns index 0).  Waypoints are pairs of a time and a
state, kept in increasing time order. -/
def getWaypointIndexAfterTime {S : Type} (wps : List (ℚ × S)) (t : ℚ) : Except String ℕ :=
  match wps.getLast? with
  | none => .error "DomainError"
  | some wN =>
    if wN.1 < t then .error "DomainError"
    else .ok (wps.findIdx fun w => decide (t < w.1))

/-- Modelled from the spec: evaluate of PiecewiseLinearTrajectory (the
implementation file is not under src).  Per spec section 4.1 and the
section 8 boundary property, it interpolates between the bracketing
waypoints for t inside the time range, is well defined at the end time
without looking past the last segment, and fails with a domain error for t
outside the range.  The state space interpolator is the external parameter
interp. -/
def evaluate {S : Type} (interp : S → S → ℚ → S) (wps : List (ℚ × S)) (t : ℚ) :
    Except String S :=
  match wps.head?, wps.getLast? with
  | some w0, some wN =>
    if t < w0.1 ∨ wN.1 < t then .error "DomainError"
    else if t == wN.1 then .ok wN.2
    else
      match getWaypointIndexAfterTime wps t with
      | .error e => .error e
      | .ok i =>
        let wa := wps.getD (i - 1) w0
        let wb := wps.getD i wN
        .ok (interp wa.2 wb.2 ((t - wa.1) / (wb.1 - wa.1)))
  | _, _ => .error "DomainError"

/-- A baseline concrete environment over rational configurations and
trajectories in which every external planner fails, normalization is the
identity, and sampling and snap planning each take one unit of wall clock
time. -/
def env0 : PlanEnv ℚ ℚ where
  snap := fun _ _ c => (none, c)
  ompl := fun _ _ _ c => (none, c)
  crrt := fun _ _ _ _ c => (none, c)
  vf := fun c _ _ _ _ _ _ _ _ _ => (none, c)
  unit := fun v => v
  fromTwoVectors := fun _ _ => idMat3
  worldTransform := fun _ => idIso3
  snapCost := 1
  sampleCost := 1
  omplCost := fun _ => 0
  vfCost := 0
  crrtCost := 0

/-- An environment whose snap planner always succeeds with trajectory 7. -/
def envA : PlanEnv ℚ ℚ := { env0 with snap := fun _ _ c => (some 7, c) }

/-- An environment whose snap planner succeeds exactly on goal 2, with
trajectory 9. -/
def envB : PlanEnv ℚ ℚ :=
  { env0 with snap := fun _ g c => (if g = 2 then some 9 else none, c) }

/-- An environment whose vector field planner succeeds exactly when the
upper end of the requested displacement window is nonnegative, as the spec
describes for an integrator that follows the direction forward. -/
def envV : PlanEnv ℚ ℚ :=
  { env0 with vf := fun c _ _ maxD _ _ _ _ _ _ => (if 0 ≤ maxD then some maxD else none, c) }

/-- The baseline environment with zero sampling and snap costs. -/
def envZ : PlanEnv ℚ ℚ := { env0 with snapCost := 0, sampleCost := 0 }

/-- The baseline environment with a normalization that maps the vector
0 0 2 to the unit vector 0 0 1 and is the identity elsewhere. -/
def envU : PlanEnv ℚ ℚ :=
  { env0 with unit := fun v => if v = ⟨0, 0, 2⟩ then ⟨0, 0, 1⟩ else v }

/-- The initial planner state: configuration 0, clock 0, no calls
recorded. -/
def st0 : PlanState ℚ := ⟨0, 0, 0, 0, 0, 0, [], []⟩

/-- A generator with one hundred successful draws of goal 1. -/
def gen100 : List (Option ℚ × ℚ) := List.replicate 100 (some 1, 1)

/-- A generator with a single successful draw of goal 5. -/
def gen1 : List (Option ℚ × ℚ) := [(some 5, 5)]

/-- Vector field parameters with distance tolerances of one tenth. -/
def vfpW : VectorFieldPlannerParameters := ⟨1/10, 1/10, 1, 1, 1⟩

/-- Linear interpolation on rational states. -/
def interpQ : ℚ → ℚ → ℚ → ℚ := fun a b r => a + r * (b - a)

/-- A concrete three waypoint trajectory at times 0, 1, 2. -/
def wps3 : List (ℚ × ℚ) := [(0, 0), (1, 1), (2, 2)]

/-- Componentwise form of scalar multiplication on Vec3. -/
theorem Vec3.smul_def (c : ℚ) (v : Vec3) : c • v = ⟨c * v.x, c * v.y, c * v.z⟩ := rfl

/-- Componentwise form of addition on Vec3. -/
theorem Vec3.add_def (a b : Vec3) : a + b = ⟨a.x + b.x, a.y + b.y, a.z + b.z⟩ := rfl

/-- Componentwise form of negation on Vec3. -/
theorem Vec3.neg_def (v : Vec3) : -v = ⟨-v.x, -v.y, -v.z⟩ := rfl

/-- The squared norm scales with the square of the scalar. -/
theorem normSq_smul (c : ℚ) (v : Vec3) : normSq (c • v) = c ^ 2 * normSq v := by
  cases v
  simp [normSq, Vec3.smul_def]
  ring

/-- Applying a matrix to a vector supported on the z axis scales the image
of the unit z axis. -/
theorem mulVec_zAxis (m : Mat3) (d : ℚ) :
    m.mulVec ⟨0, 0, d⟩ = d • m.mulVec unitZ := by
  cases m
  simp [Mat3.mulVec, Vec3.dot, unitZ, Vec3.smul_def]
  refine ⟨by ring, by ring, by ring⟩

/-- planToConfiguration restores the saved configuration on both of its
exit paths. -/
theorem planToConfiguration_config (env : PlanEnv Cfg Traj) (g : Cfg) (tl : ℚ)
    (s : PlanState Cfg) : (planToConfiguration env g tl s).2.config = s.config := by
  cases h : (env.snap s.config g s.config).1 <;> simp [planToConfiguration, h]

/-- planToConfiguration records exactly its time limit argument in the
slices instrumentation list. -/
theorem planToConfiguration_slices (env : PlanEnv Cfg Traj) (g : Cfg) (tl : ℚ)
    (s : PlanState Cfg) : (planToConfiguration env g tl s).2.slices = s.slices ++ [tl] := by
  cases h : (env.snap s.config g s.config).1 <;> simp [planToConfiguration, h]

/-- planToConfigurations restores the saved configuration on exit. -/
theorem planToConfigurations_config (env : PlanEnv Cfg Traj) (gs : List Cfg) (tl : ℚ)
    (s : PlanState Cfg) : (planToConfigurations env gs tl s).2.config = s.config := rfl

/-- planToTSR restores the saved configuration on every exit path. -/
theorem planToTSR_config (env : PlanEnv Cfg Traj) (trials : ℕ) (tl : ℚ)
    (gen : List (Option Cfg × Cfg)) (s : PlanState Cfg) :
    (planToTSR env trials tl gen s).2.config = s.config := by
  rcases h : tsrSnapLoop env s.config gen 0 s with ⟨r, s1, rest⟩
  cases r <;> simp [planToTSR, h]

/-- planToTSRwithTrajectoryConstraint restores the saved configuration on
exit. -/
theorem planToTSRwithTrajectoryConstraint_config (env : PlanEnv Cfg Traj)
    (gTsr cTsr : TSR) (tl : ℚ) (s : PlanState Cfg) :
    (planToTSRwithTrajectoryConstraint env gTsr cTsr tl s).2.config = s.config := rfl

/-- planToEndEffectorOffsetByCRRT leaves the configuration unchanged: it
mutates nothing before delegating, and its delegate restores. -/
theorem planToEndEffectorOffsetByCRRT_config (env : PlanEnv Cfg Traj) (d : Vec3)
    (dist tl pT aT : ℚ) (s : PlanState Cfg) :
    (planToEndEffectorOffsetByCRRT env d dist tl pT aT s).2.config = s.config := by
  by_cases hz : normSq d = 0
  · simp [planToEndEffectorOffsetByCRRT, hz]
  · rcases h : eeOffsetProblem env s.config d dist pT aT with e | ⟨gTsr, cTsr⟩ <;>
      simp [planToEndEffectorOffsetByCRRT, hz, h, planToTSRwithTrajectoryConstraint_config]

/-- planToEndEffectorOffset restores the saved configuration on every exit
path, including the error path of the CRRT fallback. -/
theorem planToEndEffectorOffset_config (env : PlanEnv Cfg Traj) (d : Vec3)
    (dist tl pT aT : ℚ) (vfp : VectorFieldPlannerParameters) (s : PlanState Cfg) :
    (planToEndEffectorOffset env d dist tl pT aT vfp s).2.config = s.config := by
  rcases h : (vectorfieldStage env d (dist - vfp.negativeDistanceTolerance)
      (dist + vfp.positiveDistanceTolerance) pT aT vfp.initialStepSize
      vfp.jointLimitTolerance vfp.constraintCheckResolution tl s).1 with e | (_ | t) <;>
    simp [planToEndEffectorOffset, h]

/-- The snap only phase of planToTSR performs at most maxSnapSamples minus
its starting count of snap attempts. -/
theorem tsrSnapLoop_snapCalls (env : PlanEnv Cfg Traj) (st : Cfg) :
    ∀ (gen : List (Option Cfg × Cfg)) (n : ℕ) (s : PlanState Cfg),
      (tsrSnapLoop env st gen n s).2.1.snapCalls ≤ s.snapCalls + (maxSnapSamples - n) := by
  intro gen
  induction gen with
  | nil =>
    intro n s
    by_cases hn : n < maxSnapSamples <;> simp [tsrSnapLoop, hn]
  | cons hd rest ih =>
    intro n s
    obtain ⟨draw, cAfter⟩ := hd
    by_cases hn : n < maxSnapSamples
    · cases draw with
      | none =>
        have h := ih n { s with now := s.now + env.sampleCost, config := cAfter }
        simpa [tsrSnapLoop, hn] using h
      | some g =>
        simp only [tsrSnapLoop, hn, if_true]
        split
        · simp
          omega
        · rename_i heq
          have h := ih (n + 1) { s with
            config := (env.snap st g st).2
            now := s.now + env.sampleCost + env.snapCost
            snapCalls := s.snapCalls + 1 }
          refine le_trans ?_ (le_trans h ?_)
          · apply le_of_eq
            congr 1
          · simp
            omega
    · simp [tsrSnapLoop, hn]

/-- Every time slice the timed phase of planToTSR records was delegated to
planToConfiguration and equals the minimum of the per sample slice and the
remaining global budget at the moment of delegation: the time limit minus
the elapsed time, where the elapsed time is the time e at the loop head
check (which was below the limit) plus the cost of the sample draw. -/
theorem tsrTimedLoop_slices_mem (env : PlanEnv Cfg Traj) (st : Cfg) (tps tl t0 : ℚ) :
    ∀ (gen : List (Option Cfg × Cfg)) (s : PlanState Cfg) (x : ℚ),
      x ∈ (tsrTimedLoop env st tps tl t0 gen s).2.slices →
      x ∈ s.slices ∨ ∃ e, e < tl ∧ x = min tps (tl - (e + env.sampleCost)) := by
  intro gen
  induction gen with
  | nil =>
    intro s x hx
    exact Or.inl (by simpa [tsrTimedLoop] using hx)
  | cons hd rest ih =>
    intro s x hx
    obtain ⟨draw, cAfter⟩ := hd
    by_cases hlt : s.now - t0 < tl
    · cases draw with
      | none =>
        have hx2 : x ∈ (tsrTimedLoop env st tps tl t0 rest
            { s with now := s.now + env.sampleCost, config := cAfter }).2.slices := by
          simpa [tsrTimedLoop, hlt] using hx
        rcases ih _ x hx2 with h | h
        · exact Or.inl (by simpa using h)
        · exact Or.inr h
      | some g =>
        simp only [tsrTimedLoop, hlt, if_true] at hx
        split at hx
        · rename_i t heq
          rw [planToConfiguration_slices] at hx
          simp at hx
          rcases hx with h | h
          · exact Or.inl h
          · exact Or.inr ⟨s.now - t0, hlt, by rw [h]; congr 1; ring⟩
        · rcases ih _ x hx with h | h
          · rw [planToConfiguration_slices] at h
            simp at h
            rcases h with h | h
            · exact Or.inl h
            · exact Or.inr ⟨s.now - t0, hlt, by rw [h]; congr 1; ring⟩
          · exact Or.inr h
    · exact Or.inl (by simpa [tsrTimedLoop, hlt] using hx)

/-- The wall clock advance of one planToConfiguration call: the snap cost
plus, at most, the OMPL cost for its time limit. -/
theorem planToConfiguration_now_le (env : PlanEnv Cfg Traj) (g : Cfg) (tl : ℚ)
    (s : PlanState Cfg) :
    (planToConfiguration env g tl s).2.now
      ≤ s.now + env.snapCost + max (env.omplCost tl) 0 := by
  cases h : (env.snap s.config g s.config).1 <;> simp [planToConfiguration, h]

/-- Budget discipline of the timed phase of planToTSR: if the per step
costs are nonnegative and the OMPL planner respects its time limit argument
up to a granularity C, then the clock never advances past the start of the
timer by more than the time limit plus one sample cost, one snap cost, and
C; the hypothesis allows the entry clock to already be below that bound. -/
theorem tsrTimedLoop_now_le (env : PlanEnv Cfg Traj) (st : Cfg) (tps tl t0 C : ℚ)
    (hs : 0 ≤ env.sampleCost) (hp : 0 ≤ env.snapCost) (hC : 0 ≤ C)
    (ho : ∀ q, env.omplCost q ≤ max q 0 + C) :
    ∀ (gen : List (Option Cfg × Cfg)) (s : PlanState Cfg),
      s.now - t0 ≤ tl + env.sampleCost + env.snapCost + C →
      (tsrTimedLoop env st tps tl t0 gen s).2.now - t0
        ≤ tl + env.sampleCost + env.snapCost + C := by
  intro gen
  induction gen with
  | nil =>
    intro s h
    simpa [tsrTimedLoop] using h
  | cons hd rest ih =>
    intro s h
    obtain ⟨draw, cAfter⟩ := hd
    by_cases hlt : s.now - t0 < tl
    · cases draw with
      | none =>
        have h2 := ih { s with now := s.now + env.sampleCost, config := cAfter }
          (by simp; linarith)
        simpa [tsrTimedLoop, hlt] using h2
      | some g =>
        have key : ∀ sR : PlanState Cfg, sR.now = s.now + env.sampleCost →
            (planToConfiguration env g (min tps (tl - (s.now + env.sampleCost - t0))) sR).2.now
              - t0 ≤ tl + env.sampleCost + env.snapCost + C := by
          intro sR hR
          have h1 := planToConfiguration_now_le env g
            (min tps (tl - (s.now + env.sampleCost - t0))) sR
          have h2 := ho (min tps (tl - (s.now + env.sampleCost - t0)))
          have h3 : max (env.omplCost (min tps (tl - (s.now + env.sampleCost - t0)))) 0
              ≤ max (min tps (tl - (s.now + env.sampleCost - t0))) 0 + C := by
            apply max_le
            · exact le_trans h2 (by
                have := le_max_left (min tps (tl - (s.now + env.sampleCost - t0))) (0 : ℚ)
                linarith [le_max_left (max (min tps (tl - (s.now + env.sampleCost - t0))) 0) C])
            · positivity
          have h4 : max (min tps (tl - (s.now + env.sampleCost - t0))) 0
              ≤ max (tl - (s.now + env.sampleCost - t0)) 0 :=
            max_le (le_trans (min_le_right _ _) (le_max_left _ _)) (le_max_right _ _)
          rcases le_or_lt (s.now + env.sampleCost - t0) tl with hc | hc
          · have h5 : max (tl - (s.now + env.sampleCost - t0)) 0
                = tl - (s.now + env.sampleCost - t0) := max_eq_left (by linarith)
            rw [hR] at h1
            linarith
          · have h5 : max (tl - (s.now + env.sampleCost - t0)) 0 = 0 :=
              max_eq_right (by linarith)
            rw [hR] at h1
            linarith
        simp only [tsrTimedLoop, hlt, if_true]
        split
        · rename_i t heq
          simpa using key { s with now := s.now + env.sampleCost, config := st } (by simp)
        · apply ih
          exact key { s with now := s.now + env.sampleCost, config := st } (by simp)
    · simp only [tsrTimedLoop, hlt]
      simpa using h

/-- The snap only phase of planToTSR under the baseline environment, on a
generator of k successful draws whose snap plans all fail: every draw is
consumed, no trajectory is found, and the clock advances by one sample cost
and one snap cost (one unit each) per draw. -/
theorem tsrSnapLoop_env0_replicate :
    ∀ (k n : ℕ) (s : PlanState ℚ), n + k ≤ maxSnapSamples →
      (tsrSnapLoop env0 (0 : ℚ) (List.replicate k (some 1, 1)) n s).1 = none
      ∧ (tsrSnapLoop env0 (0 : ℚ) (List.replicate k (some 1, 1)) n s).2.1.now
          = s.now + 2 * (k : ℚ)
      ∧ (tsrSnapLoop env0 (0 : ℚ) (List.replicate k (some 1, 1)) n s).2.2 = [] := by
  intro k
  induction k with
  | zero =>
    intro n s _
    by_cases hn : n < maxSnapSamples <;> simp [tsrSnapLoop, hn]
  | succ k ih =>
    intro n s hk
    have hn : n < maxSnapSamples := by omega
    have h := ih (n + 1) { s with
      config := (env0.snap 0 1 0).2
      now := s.now + env0.sampleCost + env0.snapCost
      snapCalls := s.snapCalls + 1 } (by omega)
    rw [List.replicate_succ]
    refine ⟨?_, ?_, ?_⟩
    · simpa [tsrSnapLoop, hn, env0] using h.1
    · have h2 := h.2.1
      simp only [tsrSnapLoop, hn, if_true]
      simp [env0] at h2 ⊢
      rw [h2]
      ring
    · simpa [tsrSnapLoop, hn, env0] using h.2.2

/-- C1: in planToConfiguration the snap planner is always attempted first;
when snap returns a trajectory, that trajectory is returned and the OMPL
RRTConnect stage is never invoked; the OMPL stage runs, once, exactly when
snap fails, and its result is returned. -/
theorem c1_snap_priority :
    ∀ (Cfg Traj : Type) (env : PlanEnv Cfg Traj) (g : Cfg) (tl : ℚ) (s : PlanState Cfg),
      ((planToConfiguration env g tl s).2.snapCalls = s.snapCalls + 1)
      ∧ (∀ t : Traj, (env.snap s.config g s.config).1 = some t →
          (planToConfiguration env g tl s).1 = some t
            ∧ (planToConfiguration env g tl s).2.omplCalls = s.omplCalls)
      ∧ ((env.snap s.config g s.config).1 = none →
          (planToConfiguration env g tl s).1
              = (env.ompl s.config g tl (env.snap s.config g s.config).2).1
            ∧ (planToConfiguration env g tl s).2.omplCalls = s.omplCalls + 1) := by
  intro Cfg Traj env g tl s
  refine ⟨?_, ?_, ?_⟩
  · cases h : (env.snap s.config g s.config).1 <;> simp [planToConfiguration, h]
  · intro t h
    simp [planToConfiguration, h]
  · intro h
    simp [planToConfiguration, h]

/-- Witness for c1_snap_priority: a concrete environment whose snap
planner returns trajectory 7, on which planToConfiguration returns 7
without invoking the OMPL stage. -/
theorem c1_snap_priority_witness :
    (planToConfiguration envA 5 10 st0).1 = some 7
      ∧ (planToConfiguration envA 5 10 st0).2.omplCalls = 0 := by
  have h := (c1_snap_priority ℚ ℚ envA 5 10 st0).2.1 7 rfl
  exact ⟨h.1, h.2⟩

/-- C2: the two phase structure of planToTSR.  First, the snap only phase
performs at most maxSnapSamples (one hundred) snap attempts against
freshly drawn TSR goal samples; if it finds a trajectory, planToTSR
returns it (with the saved configuration restored) and the timed phase
never runs.  Only when the snap phase fails does planToTSR run the timed
phase, on a timer freshly started at the current clock (the elapsed time
starts from zero, not from the time the snap phase consumed), with per
sample slice timelimit divided by maxNumTrials; every time slice the timed
phase delegates to planToConfiguration equals the minimum of that per
sample slice and the remaining budget, the time limit minus the elapsed
time at delegation; the loop stops, returning null, when the elapsed
time reaches the limit or the generator is exhausted. -/
theorem c2_tsr_cascade_structure :
    maxSnapSamples = 100
    ∧ (∀ (Cfg Traj : Type) (env : PlanEnv Cfg Traj) (st : Cfg)
        (gen : List (Option Cfg × Cfg)) (s : PlanState Cfg),
        (tsrSnapLoop env st gen 0 s).2.1.snapCalls ≤ s.snapCalls + maxSnapSamples)
    ∧ (∀ (Cfg Traj : Type) (env : PlanEnv Cfg Traj) (trials : ℕ) (tl : ℚ)
        (gen : List (Option Cfg × Cfg)) (s : PlanState Cfg) (t : Traj)
        (s1 : PlanState Cfg) (rest : List (Option Cfg × Cfg)),
        tsrSnapLoop env s.config gen 0 s = (some t, s1, rest) →
        planToTSR env trials tl gen s = (some t, { s1 with config := s.config }))
    ∧ (∀ (Cfg Traj : Type) (env : PlanEnv Cfg Traj) (trials : ℕ) (tl : ℚ)
        (gen : List (Option Cfg × Cfg)) (s : PlanState Cfg)
        (s1 : PlanState Cfg) (rest : List (Option Cfg × Cfg)),
        tsrSnapLoop env s.config gen 0 s = (none, s1, rest) →
        planToTSR env trials tl gen s =
          ((tsrTimedLoop env s.config (tl / (trials : ℚ)) tl s1.now rest s1).1,
           { (tsrTimedLoop env s.config (tl / (trials : ℚ)) tl s1.now rest s1).2 with
              config := s.config }))
    ∧ (∀ (Cfg Traj : Type) (env : PlanEnv Cfg Traj) (st : Cfg) (tps tl t0 : ℚ)
        (gen : List (Option Cfg × Cfg)) (s : PlanState Cfg) (x : ℚ),
        x ∈ (tsrTimedLoop env st tps tl t0 gen s).2.slices →
        x ∈ s.slices ∨ ∃ e, e < tl ∧ x = min tps (tl - (e + env.sampleCost))) := by
  refine ⟨rfl, ?_, ?_, ?_, ?_⟩
  · intro Cfg Traj env st gen s
    simpa using tsrSnapLoop_snapCalls env st gen 0 s
  · intro Cfg Traj env trials tl gen s t s1 rest h
    simp [planToTSR, h]
  · intro Cfg Traj env trials tl gen s s1 rest h
    simp [planToTSR, h]
  · intro Cfg Traj env st tps tl t0 gen s x hx
    exact tsrTimedLoop_slices_mem env st tps tl t0 gen s x hx

/-- Witness for c2_tsr_cascade_structure: a concrete environment whose
snap planner succeeds on the first drawn sample, on which planToTSR
returns that snap trajectory with the snap phase having run exactly once
and no slice ever delegated. -/
theorem c2_tsr_cascade_structure_witness :
    planToTSR envA 1 10 gen1 st0 = (some 7, ⟨0, 2, 1, 0, 0, 0, [], []⟩) := by
  have h : tsrSnapLoop envA (st0.config) gen1 0 st0
      = (some 7, (⟨0, 2, 1, 0, 0, 0, [], []⟩ : PlanState ℚ), []) := by
    simp [tsrSnapLoop, gen1, st0, envA, env0, maxSnapSamples]
    norm_num
  have h2 := c2_tsr_cascade_structure.2.2.1 ℚ ℚ envA 1 10 gen1 st0 7
    ⟨0, 2, 1, 0, 0, 0, [], []⟩ [] h
  simpa [st0] using h2

/-- C9, counterexample: the snap sample phase of planToTSR is not gated by
the time limit.  Under the baseline environment, where one sample draw and
one snap attempt each cost one unit of wall clock time, a planToTSR call
with time limit one that draws one hundred goal samples whose snap plans
all fail spends two hundred units of wall clock time, which exceeds the
time limit plus one hundred. -/
theorem c9_snap_phase_unbounded :
    (planToTSR env0 1 1 gen100 st0).2.now = 200 ∧ (1 : ℚ) + 100 < 200 := by
  constructor
  · have h := tsrSnapLoop_env0_replicate 100 0 st0 (by norm_num [maxSnapSamples])
    rcases hg : tsrSnapLoop env0 (0 : ℚ) (List.replicate 100 (some 1, 1)) 0 st0
      with ⟨r, s1, rest⟩
    rw [hg] at h
    simp only at h
    obtain ⟨h1, h2, h3⟩ := h
    subst h1 h3
    have hgen : tsrSnapLoop env0 st0.config gen100 0 st0 = (none, s1, []) := by
      simpa [gen100, st0] using hg
    have h4 := c2_tsr_cascade_structure.2.2.2.1 ℚ ℚ env0 1 1 gen100 st0 s1 [] hgen
    rw [h4]
    simp [tsrTimedLoop, st0] at h2 ⊢
    rw [h2]
    norm_num
  · norm_num

/-- C9, amended: the timed phase of planToTSR respects the time budget.
If the sample and snap costs are nonnegative and the OMPL planner respects
its time limit argument up to a granularity C, then the timed phase,
started on a fresh timer, spends at most the time limit plus one sample
cost, one snap cost, and C of wall clock time. -/
theorem c9_timed_phase_budget :
    ∀ (Cfg Traj : Type) (env : PlanEnv Cfg Traj) (st : Cfg) (tps tl t0 C : ℚ)
      (gen : List (Option Cfg × Cfg)) (s : PlanState Cfg),
      0 ≤ env.sampleCost → 0 ≤ env.snapCost → 0 ≤ C →
      (∀ q, env.omplCost q ≤ max q 0 + C) →
      s.now = t0 → 0 ≤ tl →
      (tsrTimedLoop env st tps tl t0 gen s).2.now - t0
        ≤ tl + env.sampleCost + env.snapCost + C := by
  intro Cfg Traj env st tps tl t0 C gen s hs hp hC ho hfresh htl
  apply tsrTimedLoop_now_le env st tps tl t0 C hs hp hC ho gen s
  rw [hfresh]
  linarith

/-- Witness for c9_timed_phase_budget at the zero cost environment with an
empty generator, time limit one, and granularity zero. -/
theorem c9_timed_phase_budget_witness :
    (tsrTimedLoop envZ (0 : ℚ) 5 1 0 [] st0).2.now - 0
      ≤ 1 + envZ.sampleCost + envZ.snapCost + 0 := by
  apply c9_timed_phase_budget ℚ ℚ envZ 0 5 1 0 0 [] st0
  · norm_num [envZ, env0]
  · norm_num [envZ, env0]
  · norm_num
  · intro q
    simp [envZ, env0]
  · rfl
  · norm_num

/-- C3: evaluation of the code at the failing input.  With two goal
states, where both stages fail on the first goal and snap succeeds on the
second, planToConfigurations returns null even though the second goal is
feasible (planToConfiguration on it returns a trajectory): the source for
loop ends in an unconditional return, so only the first goal is ever
attempted. -/
theorem c3_first_goal_only :
    (planToConfigurations envB [1, 2] 10 st0).1 = none
      ∧ (planToConfiguration envB 2 10 st0).1 = some 9 := by
  constructor <;> decide

/-- C4: every planning entry point of src/robot/util.cpp saves the live
configuration of the skeleton before mutating it and restores it on every
exit path (success, failure, and the error exits of the end effector
planners), so a planning call never changes the shared configuration as an
observable side effect, whatever the external planners and samplers do to
it in between. -/
theorem c4_configuration_restored :
    (∀ (Cfg Traj : Type) (env : PlanEnv Cfg Traj) (g : Cfg) (tl : ℚ) (s : PlanState Cfg),
        (planToConfiguration env g tl s).2.config = s.config)
    ∧ (∀ (Cfg Traj : Type) (env : PlanEnv Cfg Traj) (gs : List Cfg) (tl : ℚ)
        (s : PlanState Cfg),
        (planToConfigurations env gs tl s).2.config = s.config)
    ∧ (∀ (Cfg Traj : Type) (env : PlanEnv Cfg Traj) (trials : ℕ) (tl : ℚ)
        (gen : List (Option Cfg × Cfg)) (s : PlanState Cfg),
        (planToTSR env trials tl gen s).2.config = s.config)
    ∧ (∀ (Cfg Traj : Type) (env : PlanEnv Cfg Traj) (gTsr cTsr : TSR) (tl : ℚ)
        (s : PlanState Cfg),
        (planToTSRwithTrajectoryConstraint env gTsr cTsr tl s).2.config = s.config)
    ∧ (∀ (Cfg Traj : Type) (env : PlanEnv Cfg Traj) (d : Vec3) (dist tl pT aT : ℚ)
        (s : PlanState Cfg),
        (planToEndEffectorOffsetByCRRT env d dist tl pT aT s).2.config = s.config)
    ∧ (∀ (Cfg Traj : Type) (env : PlanEnv Cfg Traj) (d : Vec3) (dist tl pT aT : ℚ)
        (vfp : VectorFieldPlannerParameters) (s : PlanState Cfg),
        (planToEndEffectorOffset env d dist tl pT aT vfp s).2.config = s.config) :=
  ⟨fun _ _ env g tl s => planToConfiguration_config env g tl s,
   fun _ _ env gs tl s => planToConfigurations_config env gs tl s,
   fun _ _ env trials tl gen s => planToTSR_config env trials tl gen s,
   fun _ _ env gTsr cTsr tl s => planToTSRwithTrajectoryConstraint_config env gTsr cTsr tl s,
   fun _ _ env d dist tl pT aT s => planToEndEffectorOffsetByCRRT_config env d dist tl pT aT s,
   fun _ _ env d dist tl pT aT vfp s => planToEndEffectorOffset_config env d dist tl pT aT vfp s⟩

/-- C5: a zero length direction raises the hard zero direction error
immediately.  planToEndEffectorOffsetByCRRT returns the error with the
state untouched before any stage runs, and planToEndEffectorOffset
propagates the error of the (spec modelled) vector field validation with
no planning stage invoked (the vector field, CRRT and snap counters are
unchanged) and the configuration restored; the error is never converted
into a null result. -/
theorem c5_zero_direction :
    ∀ (Cfg Traj : Type) (env : PlanEnv Cfg Traj) (d : Vec3) (dist tl pT aT : ℚ)
      (vfp : VectorFieldPlannerParameters) (s : PlanState Cfg),
      normSq d = 0 →
      planToEndEffectorOffsetByCRRT env d dist tl pT aT s
          = (.error "Direction vector is a zero vector", s)
      ∧ (planToEndEffectorOffset env d dist tl pT aT vfp s).1
          = .error "Direction vector is a zero vector"
      ∧ (planToEndEffectorOffset env d dist tl pT aT vfp s).2.vfCalls = s.vfCalls
      ∧ (planToEndEffectorOffset env d dist tl pT aT vfp s).2.crrtCalls = s.crrtCalls
      ∧ (planToEndEffectorOffset env d dist tl pT aT vfp s).2.snapCalls = s.snapCalls
      ∧ (planToEndEffectorOffset env d dist tl pT aT vfp s).2.config = s.config := by
  intro Cfg Traj env d dist tl pT aT vfp s h
  refine ⟨?_, ?_, ?_, ?_, ?_, ?_⟩ <;>
    simp [planToEndEffectorOffsetByCRRT, planToEndEffectorOffset, vectorfieldStage, h]

/-- Witness for c5_zero_direction at the zero vector under the baseline
environment. -/
theorem c5_zero_direction_witness :
    planToEndEffectorOffsetByCRRT env0 ⟨0, 0, 0⟩ 1 1 0 0 st0
        = (.error "Direction vector is a zero vector", st0)
    ∧ (planToEndEffectorOffset env0 ⟨0, 0, 0⟩ 1 1 0 0 vfpW st0).1
        = .error "Direction vector is a zero vector" := by
  have h := c5_zero_direction ℚ ℚ env0 ⟨0, 0, 0⟩ 1 1 0 0 vfpW st0 (by norm_num [normSq])
  exact ⟨h.1, h.2.1⟩

/-- C6, counterexample: planToEndEffectorOffset itself does not
canonicalize.  It passes the raw direction and the uncanonicalized
distance window to the vector field stage, so a call with distance minus
one and direction 0 0 1 and a call with distance one and direction
0 0 minus 1 pose different vector field problems (the logged vector field
arguments differ) and return different results under a vector field
collaborator that, as the spec describes, can only realize a nonnegative
displacement along its direction. -/
theorem c6_offset_not_canonicalized :
    planToEndEffectorOffset envV ⟨0, 0, 1⟩ (-1) 1 (1/100) (1/100) vfpW st0
        ≠ planToEndEffectorOffset envV ⟨0, 0, -1⟩ 1 1 (1/100) (1/100) vfpW st0
    ∧ (planToEndEffectorOffset envV ⟨0, 0, 1⟩ (-1) 1 (1/100) (1/100) vfpW st0).2.vfArgs
        ≠ (planToEndEffectorOffset envV ⟨0, 0, -1⟩ 1 1 (1/100) (1/100) vfpW st0).2.vfArgs := by
  have hA : (planToEndEffectorOffset envV ⟨0, 0, 1⟩ (-1) 1 (1/100) (1/100) vfpW st0).1
      = .ok none := by
    norm_num [planToEndEffectorOffset, vectorfieldStage, envV, env0, vfpW, normSq,
      planToEndEffectorOffsetByCRRT, eeOffsetProblem, eeOffsetCanonical,
      getGoalAndConstraintTSRForEndEffectorOffset, getLookAtIsometry,
      planToTSRwithTrajectoryConstraint, st0, Vec3.neg_def]
  have hB : (planToEndEffectorOffset envV ⟨0, 0, -1⟩ 1 1 (1/100) (1/100) vfpW st0).1
      = .ok (some (11/10)) := by
    norm_num [planToEndEffectorOffset, vectorfieldStage, envV, env0, vfpW, normSq, st0]
  have hA2 : (planToEndEffectorOffset envV ⟨0, 0, 1⟩ (-1) 1 (1/100) (1/100) vfpW st0).2.vfArgs
      = [(⟨0, 0, 1⟩, -(11/10), -(9/10))] := by
    norm_num [planToEndEffectorOffset, vectorfieldStage, envV, env0, vfpW, normSq,
      planToEndEffectorOffsetByCRRT, eeOffsetProblem, eeOffsetCanonical,
      getGoalAndConstraintTSRForEndEffectorOffset, getLookAtIsometry,
      planToTSRwithTrajectoryConstraint, st0, Vec3.neg_def]
  have hB2 : (planToEndEffectorOffset envV ⟨0, 0, -1⟩ 1 1 (1/100) (1/100) vfpW st0).2.vfArgs
      = [(⟨0, 0, -1⟩, 9/10, 11/10)] := by
    norm_num [planToEndEffectorOffset, vectorfieldStage, envV, env0, vfpW, normSq, st0]
  constructor
  · intro h
    have h1 := congrArg Prod.fst h
    rw [hA, hB] at h1
    simp at h1
  · intro h
    rw [hA2, hB2] at h
    norm_num [Vec3.mk.injEq] at h

/-- C6, amended: the canonicalization lives in
planToEndEffectorOffsetByCRRT, not in planToEndEffectorOffset.  The CRRT
variant normalizes the direction and, for a negative distance, flips the
sign of both the distance and the direction, so a CRRT call with distance
minus one and direction 0 0 1 canonicalizes to the same distance and
direction pair as a call with distance one and direction 0 0 minus 1 and
behaves identically to it (for any environment whose normalization fixes
the two unit vectors, as real normalization does). -/
theorem c6_crrt_canonicalization :
    ∀ (Cfg Traj : Type) (env : PlanEnv Cfg Traj) (tl pT aT : ℚ) (s : PlanState Cfg),
      env.unit ⟨0, 0, 1⟩ = ⟨0, 0, 1⟩ → env.unit ⟨0, 0, -1⟩ = ⟨0, 0, -1⟩ →
      eeOffsetCanonical env.unit ⟨0, 0, 1⟩ (-1) = eeOffsetCanonical env.unit ⟨0, 0, -1⟩ 1
      ∧ planToEndEffectorOffsetByCRRT env ⟨0, 0, 1⟩ (-1) tl pT aT s
          = planToEndEffectorOffsetByCRRT env ⟨0, 0, -1⟩ 1 tl pT aT s := by
  intro Cfg Traj env tl pT aT s h1 h2
  have hc : eeOffsetCanonical env.unit ⟨0, 0, 1⟩ (-1)
      = eeOffsetCanonical env.unit ⟨0, 0, -1⟩ 1 := by
    simp [eeOffsetCanonical, h1, h2, Vec3.neg_def]
    norm_num
  refine ⟨hc, ?_⟩
  have hz1 : ¬ normSq (⟨0, 0, 1⟩ : Vec3) = 0 := by norm_num [normSq]
  have hz2 : ¬ normSq (⟨0, 0, -1⟩ : Vec3) = 0 := by norm_num [normSq]
  simp only [planToEndEffectorOffsetByCRRT, eeOffsetProblem]
  rw [if_neg hz1, if_neg hz2, hc]

/-- Witness for c6_crrt_canonicalization at the baseline environment,
whose normalization is the identity. -/
theorem c6_crrt_canonicalization_witness :
    planToEndEffectorOffsetByCRRT env0 ⟨0, 0, 1⟩ (-1) 1 0 0 st0
      = planToEndEffectorOffsetByCRRT env0 ⟨0, 0, -1⟩ 1 1 0 0 st0 :=
  (c6_crrt_canonicalization ℚ ℚ env0 1 0 0 st0 rfl rfl).2

/-- C7: the offset TSR builder.  Under the defining property of
FromTwoVectors (it maps the unit z axis to the normalized direction) and a
direction whose squared norm passes the zero check, the builder succeeds;
the constraint TSR is anchored at a look at frame whose translation is the
current world position of the body frame and whose z axis is the
normalized direction; the goal TSR has the all zero bounds matrix and its
anchor sits at the body position displaced by the distance along the
normalized direction; the constraint bounds are plus and minus the
position tolerance on the two translation axes orthogonal to travel, zero
to distance along travel, and plus and minus the angular tolerance on all
three rotational axes; both TSRs share the same end effector offset. -/
theorem c7_offset_tsr_geometry :
    ∀ (ftv : Vec3 → Vec3 → Mat3) (unit : Vec3 → Vec3) (hEE : Iso3) (d : Vec3)
      (dist pT aT : ℚ),
      (ftv unitZ d).mulVec unitZ = unit d →
      ¬ normSq d < 1 / 1000000000000 →
      ∃ goalTsr constraintTsr,
        getGoalAndConstraintTSRForEndEffectorOffset ftv hEE d dist pT aT
            = .ok (goalTsr, constraintTsr)
        ∧ constraintTsr.mT0_w.translation = hEE.translation
        ∧ constraintTsr.mT0_w.linear.mulVec unitZ = unit d
        ∧ goalTsr.mBw = zeroBw
        ∧ constraintTsr.mBw
            = ⟨⟨-pT, pT⟩, ⟨-pT, pT⟩, ⟨0, dist⟩, ⟨-aT, aT⟩, ⟨-aT, aT⟩, ⟨-aT, aT⟩⟩
        ∧ goalTsr.mT0_w.translation = hEE.translation + dist • unit d
        ∧ goalTsr.mTw_e = constraintTsr.mTw_e := by
  intro ftv unit hEE d dist pT aT hz hn
  unfold getGoalAndConstraintTSRForEndEffectorOffset getLookAtIsometry
  rw [if_neg hn]
  refine ⟨_, _, rfl, rfl, hz, rfl, rfl, ?_, rfl⟩
  show (Iso3.comp ⟨ftv unitZ d, hEE.translation⟩ ⟨idMat3, ⟨0, 0, dist⟩⟩).translation
      = hEE.translation + dist • unit d
  rw [Iso3.comp]
  simp only [mulVec_zAxis, hz]
  cases hv : unit d
  cases ht : hEE.translation
  simp [Vec3.add_def, Vec3.smul_def]
  refine ⟨by ring, by ring, by ring⟩

/-- Witness for c7_offset_tsr_geometry: at a concrete rotation oracle, the
identity body transform and the unit z direction, the builder does not
fail. -/
theorem c7_offset_tsr_geometry_witness :
    getGoalAndConstraintTSRForEndEffectorOffset (fun _ _ => idMat3) idIso3 ⟨0, 0, 1⟩ 3
        (1/100) (1/100)
      ≠ .error "positionTo cannot be a zero vector." := by
  obtain ⟨g, c, h, _⟩ := c7_offset_tsr_geometry (fun _ _ => idMat3) (fun v => v) idIso3
    ⟨0, 0, 1⟩ 3 (1/100) (1/100)
    (by norm_num [idMat3, Mat3.mulVec, Vec3.dot, unitZ])
    (by norm_num [normSq])
  rw [h]
  simp

/-- C10: planToEndEffectorOffsetByCRRT depends only on the orientation of
the direction, not on its magnitude.  For a positive scale c and a nonzero
direction d, since normalization is scale invariant, the canonicalized
pair, the goal and constraint TSR pair, and the whole call coincide for d
and for c times d. -/
theorem c10_direction_scale_invariance :
    ∀ (Cfg Traj : Type) (env : PlanEnv Cfg Traj) (c : ℚ) (d : Vec3)
      (dist tl pT aT : ℚ) (s : PlanState Cfg),
      0 < c → normSq d ≠ 0 → env.unit (c • d) = env.unit d →
      eeOffsetCanonical env.unit (c • d) dist = eeOffsetCanonical env.unit d dist
      ∧ eeOffsetProblem env s.config (c • d) dist pT aT
          = eeOffsetProblem env s.config d dist pT aT
      ∧ planToEndEffectorOffsetByCRRT env (c • d) dist tl pT aT s
          = planToEndEffectorOffsetByCRRT env d dist tl pT aT s := by
  intro Cfg Traj env c d dist tl pT aT s hc hd hu
  have hcanon : eeOffsetCanonical env.unit (c • d) dist
      = eeOffsetCanonical env.unit d dist := by
    simp [eeOffsetCanonical, hu]
  have hprob : eeOffsetProblem env s.config (c • d) dist pT aT
      = eeOffsetProblem env s.config d dist pT aT := by
    simp only [eeOffsetProblem, hcanon]
  have hz : normSq (c • d) ≠ 0 := by
    rw [normSq_smul]
    exact mul_ne_zero (pow_ne_zero 2 (ne_of_gt hc)) hd
  refine ⟨hcanon, hprob, ?_⟩
  simp only [planToEndEffectorOffsetByCRRT]
  rw [if_neg hz, if_neg hd, hprob]

/-- Witness for c10_direction_scale_invariance at scale two and direction
the unit z axis, under an environment whose normalization maps both 0 0 2
and 0 0 1 to 0 0 1. -/
theorem c10_direction_scale_invariance_witness :
    planToEndEffectorOffsetByCRRT envU ((2 : ℚ) • ⟨0, 0, 1⟩) 3 1 0 0 st0
      = planToEndEffectorOffsetByCRRT envU ⟨0, 0, 1⟩ 3 1 0 0 st0 :=
  (c10_direction_scale_invariance ℚ ℚ envU 2 ⟨0, 0, 1⟩ 3 1 0 0 st0
    (by norm_num) (by norm_num [normSq])
    (by norm_num [envU, env0, Vec3.smul_def, Vec3.mk.injEq])).2.2

/-- C8: bounds behaviour of trajectory evaluation.  For a nonempty
waypoint list with first time t0 and last time tN, evaluate fails with the
domain error strictly below t0 and strictly above tN and succeeds at t0
and at tN, while the internal lookup getWaypointIndexAfterTime fails
exactly above the last waypoint time and returns index 0 below the first
waypoint time. -/
theorem c8_evaluate_domain :
    ∀ (S : Type) (interp : S → S → ℚ → S) (w0 : ℚ × S) (rest : List (ℚ × S)) (wN : ℚ × S),
      (w0 :: rest).getLast? = some wN → w0.1 ≤ wN.1 →
      (∀ t, t < w0.1 → evaluate interp (w0 :: rest) t = .error "DomainError")
      ∧ (∀ t, wN.1 < t → evaluate interp (w0 :: rest) t = .error "DomainError")
      ∧ (∃ y, evaluate interp (w0 :: rest) w0.1 = .ok y)
      ∧ (∃ y, evaluate interp (w0 :: rest) wN.1 = .ok y)
      ∧ (∀ t, wN.1 < t → getWaypointIndexAfterTime (w0 :: rest) t = .error "DomainError")
      ∧ (∀ t, t < w0.1 → getWaypointIndexAfterTime (w0 :: rest) t = .ok 0) := by
  intro S interp w0 rest wN hlast h0N
  have hidx : ∀ t, ¬ wN.1 < t →
      getWaypointIndexAfterTime (w0 :: rest) t
        = .ok ((w0 :: rest).findIdx fun w => decide (t < w.1)) := by
    intro t ht
    simp only [getWaypointIndexAfterTime, hlast]
    rw [if_neg ht]
  refine ⟨?_, ?_, ?_, ?_, ?_, ?_⟩
  · intro t ht
    simp only [evaluate, List.head?_cons, hlast]
    rw [if_pos (Or.inl ht)]
  · intro t ht
    simp only [evaluate, List.head?_cons, hlast]
    rw [if_pos (Or.inr ht)]
  · have hcond : ¬ (w0.1 < w0.1 ∨ wN.1 < w0.1) := by
      push_neg
      exact ⟨le_refl _, h0N⟩
    by_cases hbeq : w0.1 = wN.1
    · refine ⟨wN.2, ?_⟩
      simp only [evaluate, List.head?_cons, hlast]
      rw [if_neg hcond, if_pos (by simpa using hbeq)]
    · simp only [evaluate, List.head?_cons, hlast, hidx w0.1 (not_lt.mpr h0N)]
      rw [if_neg hcond, if_neg (by simpa using hbeq)]
      exact ⟨_, rfl⟩
  · refine ⟨wN.2, ?_⟩
    have hcond : ¬ (wN.1 < w0.1 ∨ wN.1 < wN.1) := by
      push_neg
      exact ⟨h0N, le_refl _⟩
    simp only [evaluate, List.head?_cons, hlast]
    rw [if_neg hcond, if_pos (by simp)]
  · intro t ht
    simp only [getWaypointIndexAfterTime, hlast]
    rw [if_pos ht]
  · intro t ht
    rw [hidx t (not_lt.mpr (le_trans (le_of_lt ht) h0N))]
    simp [List.findIdx_cons, ht]

/-- Witness for c8_evaluate_domain at the concrete three waypoint
trajectory with times 0, 1, 2 under linear interpolation. -/
theorem c8_evaluate_domain_witness :
    evaluate interpQ wps3 (5/2) = .error "DomainError"
    ∧ evaluate interpQ wps3 (-1) = .error "DomainError"
    ∧ getWaypointIndexAfterTime wps3 3 = .error "DomainError"
    ∧ getWaypointIndexAfterTime wps3 (-1) = .ok 0
    ∧ evaluate interpQ wps3 0 ≠ .error "DomainError"
    ∧ evaluate interpQ wps3 2 ≠ .error "DomainError" := by
  have h := c8_evaluate_domain ℚ interpQ (0, 0) [(1, 1), (2, 2)] (2, 2) rfl (by norm_num)
  have e : wps3 = ((0 : ℚ), (0 : ℚ)) :: [(1, 1), (2, 2)] := rfl
  rw [e]
  refine ⟨?_, ?_, ?_, ?_, ?_, ?_⟩
  · exact h.2.1 (5/2) (by norm_num)
  · exact h.1 (-1) (by norm_num)
  · exact h.2.2.2.2.1 3 (by norm_num)
  · exact h.2.2.2.2.2 (-1) (by norm_num)
  · obtain ⟨y, hy⟩ := h.2.2.1
    rw [hy]
    simp
  · obtain ⟨y, hy⟩ := h.2.2.2.1
    rw [hy]
    simp

end Aikido
